import Mathlib

/-!
# Keyframe-aligned prebuffer recorder

A shallow embedding of `src/PoC_buffering/prebuffer_recorder.hpp` and
`src/PoC_buffering/prebuffer_recorder.cpp`, followed by theorems about the
frame ring and the recorder.

Conventions of the embedding.

* `std::deque<EncodedFrame>` is a `List EncodedFrame`, oldest frame first.
* `size_t` values are natural numbers (no arithmetic is done on them).
* `int` is a 32-bit two's complement integer: the conversion
  `(int)frames_.size()` and the subtraction that follows are reduced with
  `castInt`.
* `pop_front()` on an empty deque has no defined result: `FrameRing.push`
  returns an `Option`.
* Calls of the recorder are executed one after another (the callback path is
  serialised); the blocking wait of `triggerStop` on the bus is taken to
  return and touches no field of the recorder.
-/

namespace Prebuffer

/-! ## Data model -/

/-- One encoded frame: `data` (bytes), `pts` (nanoseconds, `uint64_t`) and the
IDR flag `keyframe`. -/
structure EncodedFrame where
  data : List (Fin 256)
  pts : Nat
  keyframe : Bool
deriving DecidableEq, Repr

/-- The class `FrameRing`: the bound `maxFrames_` and the deque `frames_`. -/
structure FrameRing where
  maxFrames : Nat
  frames : List EncodedFrame
deriving DecidableEq, Repr

/-- Conversion of an integer value to the 32-bit `int` of the source
(two's complement: the result lies in `[-2^31, 2^31)`). -/
def castInt (x : Int) : Int :=
  Int.bmod x (2 ^ 32)

/-- The largest value of `int`. -/
def INT_MAX : Nat := 2 ^ 31 - 1

namespace FrameRing

/-- Constructor `FrameRing(size_t maxFrames)`: the deque starts empty. -/
def new (maxFrames : Nat) : FrameRing :=
  { maxFrames := maxFrames, frames := [] }

/-- The call `frames_.pop_front()`; undefined on an empty deque. -/
def pop_front : List EncodedFrame → Option (List EncodedFrame)
  | [] => none
  | _ :: rest => some rest

/-- Method `FrameRing::push`: when the deque holds `maxFrames_` frames the
oldest one is dropped first, then the frame is appended at the back. -/
def push (r : FrameRing) (f : EncodedFrame) : Option FrameRing :=
  if r.frames.length = r.maxFrames then
    match pop_front r.frames with
    | none => none
    | some rest => some { r with frames := rest ++ [f] }
  else
    some { r with frames := r.frames ++ [f] }

/-- Successive calls of `push`, in list order. -/
def pushAll (r : FrameRing) : List EncodedFrame → Option FrameRing
  | [] => some r
  | f :: fs =>
    match r.push f with
    | none => none
    | some r1 => pushAll r1 fs

/-- The test `frames_[idx].keyframe`. -/
def keyAt (frames : List EncodedFrame) (idx : Nat) : Bool :=
  match frames[idx]? with
  | some f => f.keyframe
  | none => false

/-- The loop `while (idx >= 0 && !frames_[idx].keyframe) --idx;` entered with
a non-negative `idx`, which is carried as the natural number `idx + 1`; the
value is the final `idx`. -/
def scanBack (frames : List EncodedFrame) : Nat → Int
  | 0 => -1
  | n + 1 => if keyAt frames n = false then scanBack frames n else (n : Int)

/-- Method `FrameRing::getPrebufferFromLastKeyframe`. -/
def getPrebufferFromLastKeyframe (r : FrameRing) : List EncodedFrame :=
  if r.frames.isEmpty then []
  else
    let idx0 : Int := castInt (castInt (r.frames.length : Int) - 1)
    let idx1 : Int := if idx0 < 0 then idx0 else scanBack r.frames (idx0.toNat + 1)
    let idx2 : Int := if idx1 < 0 then 0 else idx1
    r.frames.drop idx2.toNat

end FrameRing

/-! ## The recorder and its two pipelines -/

/-- A `GstBuffer` handed to `onNewBuffer` by the capture appsink: whether
`gst_buffer_map` succeeds on it, its bytes, its `pts` field (`guint64`) and its
`GST_BUFFER_FLAG_DELTA_UNIT` flag. -/
structure GstBuffer where
  mappable : Bool
  data : List (Fin 256)
  pts : Nat
  deltaUnit : Bool
deriving DecidableEq, Repr

/-- The invalid timestamp `GST_CLOCK_TIME_NONE`, all 64 bits set. -/
def GST_CLOCK_TIME_NONE : Nat := 2 ^ 64 - 1

/-- A buffer built with `gst_buffer_new_allocate` and `gst_buffer_fill` for
the recording appsrc: bytes, `pts` and `dts`. -/
structure OutBuffer where
  data : List (Fin 256)
  pts : Nat
  dts : Nat
deriving DecidableEq, Repr

/-- The answer of `gst_app_src_push_buffer`. -/
inductive GstFlowReturn where
  | ok
  | error
deriving DecidableEq, Repr

/-- The recording appsrc as the recorder sees it: `calls` are the buffers
handed to `gst_app_src_push_buffer` so far, in call order, `eos` counts the
end-of-stream signals, and `rejected` lists the positions (0-based, in
`calls`) of the pushes that the downstream pipeline answers with an error. -/
structure AppSrc where
  rejected : List Nat
  calls : List OutBuffer
  eos : Nat
deriving DecidableEq, Repr

/-- State of a pipeline element. -/
inductive GstState where
  | playing
  | null
deriving DecidableEq, Repr

/-- External call `gst_app_src_push_buffer(GST_APP_SRC(appsrc), buf)`: on a
null handle nothing is pushed; otherwise the buffer is handed over and the
pipeline answers. -/
def gst_app_src_push_buffer (appsrc : Option AppSrc) (buf : OutBuffer) :
    Option AppSrc × GstFlowReturn :=
  match appsrc with
  | none => (none, GstFlowReturn.error)
  | some a =>
    (some { a with calls := a.calls ++ [buf] },
      if a.calls.length ∈ a.rejected then GstFlowReturn.error else GstFlowReturn.ok)

/-- External call `gst_app_src_end_of_stream(GST_APP_SRC(appsrc))`. -/
def gst_app_src_end_of_stream (appsrc : Option AppSrc) : Option AppSrc :=
  match appsrc with
  | none => none
  | some a => some { a with eos := a.eos + 1 }

/-- External call `gst_element_set_state(pipeline, state)`. -/
def gst_element_set_state (pipeline : Option GstState) (state : GstState) :
    Option GstState :=
  match pipeline with
  | none => none
  | some _ => some state

/-- Modelled from the spec: the declarations of `totalFrames_`,
`prebufferPushed_` and `livePushed_` are missing from the header; the spec
describes them as monotonic counts, so a counter is a natural number. -/
abbrev Counter : Type := Nat

/-- Modelled from the spec: the initial value of the three counters, whose
declarations are missing from the header, is zero. -/
def Counter.initial : Counter := 0

/-- The class `PrebufferRecorder`. Fields `ring_`, `recordingActive_`,
`pipelineRec_` and `appsrcRec_` are those of the header (a null pointer is
`none`); `stdout` collects the three numbers printed by each `triggerStop`.
The capture-side handles `pipelineCap_` and `appsinkCap_` are left out: no
method below reads or writes them. -/
structure PrebufferRecorder where
  ring : FrameRing
  recordingActive : Bool
  pipelineRec : Option GstState
  appsrcRec : Option AppSrc
  totalFrames : Counter
  prebufferPushed : Counter
  livePushed : Counter
  stdout : List (Nat × Nat × Nat)
deriving DecidableEq, Repr

namespace PrebufferRecorder

/-- Constructor `PrebufferRecorder()`: a ring of 900 frames, not recording,
both recorder-side handles null. -/
def new : PrebufferRecorder :=
  { ring := FrameRing.new 900
    recordingActive := false
    pipelineRec := none
    appsrcRec := none
    totalFrames := Counter.initial
    prebufferPushed := Counter.initial
    livePushed := Counter.initial
    stdout := [] }

/-- Method `initPipelines`, recorder side: `launched` is the appsrc named
`rec` of the pipeline built by `gst_parse_launch` (`none` when the launch
fails or the element is not found); the pipeline, created in state `NULL`, is
set to `PLAYING`. The capture side only wires the callback that calls
`onNewBuffer`. -/
def initPipelines (s : PrebufferRecorder) (launched : Option AppSrc) : PrebufferRecorder :=
  { s with
    pipelineRec :=
      gst_element_set_state (launched.map (fun _ => GstState.null)) GstState.playing
    appsrcRec := launched }

/-- The frame copied out of a mapped buffer by `onNewBuffer`: a buffer without
`DELTA_UNIT` is a keyframe, an invalid `pts` becomes 0. -/
def toFrame (b : GstBuffer) : EncodedFrame :=
  { data := b.data
    pts := if b.pts ≠ GST_CLOCK_TIME_NONE then b.pts else 0
    keyframe := !b.deltaUnit }

/-- The buffer pushed to the appsrc for a frame: its bytes, with `pts` and
`dts` both set to the frame's `pts`. -/
def outBuffer (f : EncodedFrame) : OutBuffer :=
  { data := f.data, pts := f.pts, dts := f.pts }

/-- Method `PrebufferRecorder::onNewBuffer`. -/
def onNewBuffer (s : PrebufferRecorder) (buffer : GstBuffer) : Option PrebufferRecorder :=
  if buffer.mappable = false then some s
  else
    let key : Bool := !buffer.deltaUnit
    let pts : Nat := if buffer.pts ≠ GST_CLOCK_TIME_NONE then buffer.pts else 0
    let f : EncodedFrame := { data := buffer.data, pts := pts, keyframe := key }
    match s.ring.push f with
    | none => none
    | some ring1 =>
      let s1 : PrebufferRecorder := { s with ring := ring1, totalFrames := s.totalFrames + 1 }
      if s1.recordingActive && s1.appsrcRec.isSome then
        let out : OutBuffer := { data := buffer.data, pts := pts, dts := pts }
        some { s1 with
          appsrcRec := (gst_app_src_push_buffer s1.appsrcRec out).1
          livePushed := s1.livePushed + 1 }
      else
        some s1

/-- Successive calls of `onNewBuffer`, in list order. -/
def onNewBuffers (s : PrebufferRecorder) : List GstBuffer → Option PrebufferRecorder
  | [] => some s
  | b :: bs =>
    match s.onNewBuffer b with
    | none => none
    | some s1 => onNewBuffers s1 bs

/-- The loop `for (const auto& f : pre)` of `triggerStart`: each frame is
pushed to the appsrc, the answer of the push is dropped, and
`prebufferPushed_` is incremented. -/
def pushPreroll (s : PrebufferRecorder) : List EncodedFrame → PrebufferRecorder
  | [] => s
  | f :: rest =>
    let buf : OutBuffer := { data := f.data, pts := f.pts, dts := f.pts }
    pushPreroll
      { s with
        appsrcRec := (gst_app_src_push_buffer s.appsrcRec buf).1
        prebufferPushed := s.prebufferPushed + 1 }
      rest

/-- Method `PrebufferRecorder::triggerStart` (returns `void`). -/
def triggerStart (s : PrebufferRecorder) : PrebufferRecorder :=
  if s.recordingActive then s
  else
    let pre := s.ring.getPrebufferFromLastKeyframe
    let s1 := pushPreroll s pre
    { s1 with recordingActive := true }

/-- Method `PrebufferRecorder::triggerStop` (returns `void`): the flag is
cleared, the three counters are printed, end-of-stream is signalled, the bus
is waited on, and the recording pipeline is set to `NULL`. -/
def triggerStop (s : PrebufferRecorder) : PrebufferRecorder :=
  if s.recordingActive = false then s
  else
    let s1 : PrebufferRecorder := { s with recordingActive := false }
    let s2 : PrebufferRecorder :=
      { s1 with stdout := s1.stdout ++ [(s1.totalFrames, s1.prebufferPushed, s1.livePushed)] }
    let s3 : PrebufferRecorder := { s2 with appsrcRec := gst_app_src_end_of_stream s2.appsrcRec }
    { s3 with pipelineRec := gst_element_set_state s3.pipelineRec GstState.null }

/-- One recording session: buffers delivered before the start, one
`triggerStart`, buffers delivered while recording, one `triggerStop`. -/
def session (s : PrebufferRecorder) (before live : List GstBuffer) :
    Option PrebufferRecorder :=
  match s.onNewBuffers before with
  | none => none
  | some s1 =>
    match s1.triggerStart.onNewBuffers live with
    | none => none
    | some s2 => some s2.triggerStop

end PrebufferRecorder

/-! ## Concrete values used by the closed statements -/

/-- Five frames with keyframe flags `[true, false, false, true, false]`. -/
def scenarioFrames : List EncodedFrame :=
  [⟨[0], 0, true⟩, ⟨[1], 10, false⟩, ⟨[2], 20, false⟩, ⟨[3], 30, true⟩, ⟨[4], 40, false⟩]

/-- Three frames without any keyframe. -/
def deltaFrames : List EncodedFrame :=
  [⟨[0], 0, false⟩, ⟨[1], 10, false⟩, ⟨[2], 20, false⟩]

/-- The frames of `deltaFrames` with the first one turned into a keyframe. -/
def keyedFrames : List EncodedFrame :=
  [⟨[0], 0, true⟩, ⟨[1], 10, false⟩, ⟨[2], 20, false⟩]

/-- The buffers that `onNewBuffer` turns into `scenarioFrames`. -/
def scenarioBuffers : List GstBuffer :=
  [⟨true, [0], 0, false⟩, ⟨true, [1], 10, true⟩, ⟨true, [2], 20, true⟩, ⟨true, [3], 30, false⟩,
    ⟨true, [4], 40, true⟩]

/-- Two buffers delivered while recording. -/
def liveBuffers : List GstBuffer :=
  [⟨true, [5], 50, true⟩, ⟨true, [6], 60, true⟩]

/-- An appsrc that has received nothing and accepts every push. -/
def freshSink : AppSrc :=
  { rejected := [], calls := [], eos := 0 }

/-- An appsrc that has received nothing and answers its first push with an
error. -/
def rejectingSink : AppSrc :=
  { rejected := [0], calls := [], eos := 0 }

/-- A recorder that is not recording and whose ring holds `frames`. -/
def idleRecorder (sink : AppSrc) (frames : List EncodedFrame) : PrebufferRecorder :=
  { (PrebufferRecorder.new.initPipelines (some sink)) with
    ring := { maxFrames := 900, frames := frames }
    totalFrames := frames.length }

/-! ## Lemmas on the frame ring -/

namespace FrameRing

theorem castInt_size_pred (n : Nat) (hpos : 0 < n) (hmax : n ≤ INT_MAX) :
    castInt (castInt (n : Int) - 1) = (n : Int) - 1 := by
  unfold INT_MAX at hmax
  simp only [castInt, Int.bmod]
  norm_num
  omega

theorem keyAt_eq_of_get (frames : List EncodedFrame) (i : Nat) (f : EncodedFrame)
    (h : frames[i]? = some f) : keyAt frames i = f.keyframe := by
  simp [keyAt, h]

theorem scanBack_all_delta (frames : List EncodedFrame) (n : Nat)
    (h : ∀ j, j < n → keyAt frames j = false) : scanBack frames n = -1 := by
  induction n with
  | zero => rfl
  | succ n ih =>
    have hn : keyAt frames n = false := h n (Nat.lt_succ_self n)
    simp only [scanBack, hn, if_true]
    exact ih (fun j hj => h j (Nat.lt_succ_of_lt hj))

theorem scanBack_last_key (frames : List EncodedFrame) (km n : Nat) (hlt : km < n)
    (hkey : keyAt frames km = true)
    (hlast : ∀ j, km < j → j < n → keyAt frames j = false) :
    scanBack frames n = (km : Int) := by
  induction n with
  | zero => omega
  | succ n ih =>
    by_cases hkn : km = n
    · subst hkn
      simp [scanBack, hkey]
    · have hlt2 : km < n := by omega
      have hn : keyAt frames n = false := hlast n hlt2 (Nat.lt_succ_self n)
      simp only [scanBack, hn, if_true]
      exact ih hlt2 (fun j h1 h2 => hlast j h1 (Nat.lt_succ_of_lt h2))

theorem keyAt_false_of_no_key (frames : List EncodedFrame)
    (h : ∀ f ∈ frames, f.keyframe = false) (j : Nat) : keyAt frames j = false := by
  unfold keyAt
  cases hj : frames[j]? with
  | none => rfl
  | some f => exact h f (List.getElem?_mem hj)

theorem push_eq_drop (r : FrameRing) (f : EncodedFrame) (hcap : 1 ≤ r.maxFrames)
    (hlen : r.frames.length ≤ r.maxFrames) :
    r.push f = some { r with
      frames := (r.frames ++ [f]).drop (r.frames.length + 1 - r.maxFrames) } := by
  unfold push
  by_cases hfull : r.frames.length = r.maxFrames
  · cases hfr : r.frames with
    | nil => rw [hfr] at hfull; simp at hfull; omega
    | cons a t =>
      rw [hfr] at hfull
      have h1 : (a :: t).length + 1 - r.maxFrames = 1 := by omega
      simp [hfull, pop_front, h1]
  · have h0 : r.frames.length + 1 - r.maxFrames = 0 := by omega
    simp [hfull, h0]

theorem pushAll_eq_drop (fs : List EncodedFrame) :
    ∀ r : FrameRing, 1 ≤ r.maxFrames → r.frames.length ≤ r.maxFrames →
      r.pushAll fs = some { r with
        frames := (r.frames ++ fs).drop ((r.frames ++ fs).length - r.maxFrames) } := by
  induction fs with
  | nil =>
    intro r _ hlen
    have h0 : r.frames.length - r.maxFrames = 0 := by omega
    simp [pushAll, h0]
  | cons f fs ih =>
    intro r hcap hlen
    have hlen1 : ((r.frames ++ [f]).drop (r.frames.length + 1 - r.maxFrames)).length
        ≤ r.maxFrames := by
      simp only [List.length_drop, List.length_append, List.length_singleton]
      omega
    have hle : r.frames.length + 1 - r.maxFrames ≤ (r.frames ++ [f]).length := by
      simp only [List.length_append, List.length_singleton]
      omega
    simp only [pushAll, push_eq_drop r f hcap hlen]
    rw [ih { r with frames := (r.frames ++ [f]).drop (r.frames.length + 1 - r.maxFrames) }
      hcap hlen1]
    simp only [← List.drop_append_of_le_length hle, List.drop_drop, List.append_assoc,
      List.singleton_append, List.length_drop, List.length_append, List.length_cons,
      List.length_nil]
    have harith : r.frames.length + 1 - r.maxFrames +
        (r.frames.length + (fs.length + 1) - (r.frames.length + 1 - r.maxFrames) - r.maxFrames)
          = r.frames.length + (fs.length + 1) - r.maxFrames := by
      omega
    rw [harith]

theorem push_isSome (r : FrameRing) (f : EncodedFrame) (hcap : 1 ≤ r.maxFrames) :
    ∃ r1, r.push f = some r1 ∧ r1.maxFrames = r.maxFrames := by
  unfold push
  by_cases hfull : r.frames.length = r.maxFrames
  · cases hfr : r.frames with
    | nil => rw [hfr] at hfull; simp at hfull; omega
    | cons a t =>
      rw [hfr] at hfull
      simp [hfull, pop_front]
  · simp [hfull]

theorem push_capacity_pos (r : FrameRing) (f : EncodedFrame) (hcap : 1 ≤ r.maxFrames)
    (hlen : r.frames.length ≤ r.maxFrames) :
    ∃ r1, r.push f = some r1 ∧ r1.maxFrames = r.maxFrames ∧
      r1.frames.length ≤ r1.maxFrames ∧
      (r.frames.length = r.maxFrames → r1.frames = r.frames.tail ++ [f]) ∧
      (r.frames.length < r.maxFrames → r1.frames = r.frames ++ [f]) := by
  refine ⟨_, push_eq_drop r f hcap hlen, rfl, ?_, ?_, ?_⟩
  · simp only [List.length_drop, List.length_append, List.length_singleton]
    omega
  · intro hfull
    have h1 : r.frames.length + 1 - r.maxFrames = 1 := by omega
    rw [h1]
    cases hfr : r.frames with
    | nil => rw [hfr] at hfull; simp at hfull; omega
    | cons x t => rfl
  · intro hroom
    have h0 : r.frames.length + 1 - r.maxFrames = 0 := by omega
    simp [h0]

theorem push_getLast (r r1 : FrameRing) (f : EncodedFrame) (h : r.push f = some r1) :
    r1.frames.getLast? = some f := by
  unfold push at h
  by_cases hfull : r.frames.length = r.maxFrames
  · rw [if_pos hfull] at h
    cases hfr : r.frames with
    | nil =>
      rw [hfr] at h
      exact absurd h (by simp [pop_front])
    | cons x t =>
      rw [hfr] at h
      have h2 : ({ r with frames := t ++ [f] } : FrameRing) = r1 := Option.some.inj h
      rw [← h2]
      simp
  · rw [if_neg hfull] at h
    have h2 : ({ r with frames := r.frames ++ [f] } : FrameRing) = r1 := Option.some.inj h
    rw [← h2]
    simp

theorem scanBack_cases (frames : List EncodedFrame) (n : Nat) :
    (scanBack frames n = -1 ∧ ∀ j, j < n → keyAt frames j = false) ∨
    (∃ k, k < n ∧ scanBack frames n = (k : Int) ∧ keyAt frames k = true) := by
  induction n with
  | zero =>
    left
    exact ⟨rfl, fun j hj => absurd hj (Nat.not_lt_zero j)⟩
  | succ n ih =>
    cases hn : keyAt frames n with
    | true =>
      right
      exact ⟨n, Nat.lt_succ_self n, by simp [scanBack, hn], hn⟩
    | false =>
      rcases ih with ⟨hm, hall⟩ | ⟨k, hk, hs, hkey⟩
      · left
        refine ⟨by simp [scanBack, hn, hm], ?_⟩
        intro j hj
        by_cases hjn : j = n
        · rw [hjn]; exact hn
        · exact hall j (by omega)
      · right
        exact ⟨k, Nat.lt_succ_of_lt hk, by simp [scanBack, hn, hs], hkey⟩

theorem getPrebuffer_mem (r : FrameRing) (f : EncodedFrame)
    (h : f ∈ r.getPrebufferFromLastKeyframe) : f ∈ r.frames := by
  unfold getPrebufferFromLastKeyframe at h
  by_cases hemp : r.frames.isEmpty = true
  · simp [hemp] at h
  · simp only [hemp, Bool.false_eq_true, if_false] at h
    exact List.mem_of_mem_drop h

theorem getPrebuffer_length_le (r : FrameRing) :
    r.getPrebufferFromLastKeyframe.length ≤ r.frames.length := by
  unfold getPrebufferFromLastKeyframe
  by_cases hemp : r.frames.isEmpty = true
  · simp [hemp]
  · simp only [hemp, Bool.false_eq_true, if_false, List.length_drop]
    omega

end FrameRing

/-! ## Lemmas on the recorder -/

namespace PrebufferRecorder

theorem counter_add_succ (x : Counter) (n : Nat) : x + 1 + n = x + (n + 1) :=
  (Nat.add_assoc x 1 n).trans (congrArg (fun k => x + k) (Nat.add_comm 1 n))

theorem pushPreroll_eq (pre : List EncodedFrame) :
    ∀ (s : PrebufferRecorder) (a : AppSrc), s.appsrcRec = some a →
      pushPreroll s pre = { s with
        appsrcRec := some { a with calls := a.calls ++ pre.map outBuffer }
        prebufferPushed := s.prebufferPushed + pre.length } := by
  induction pre with
  | nil =>
    intro s a ha
    cases s
    simp only at ha
    subst ha
    simp [pushPreroll]
  | cons f rest ih =>
    intro s a ha
    have hstep : (gst_app_src_push_buffer s.appsrcRec
        { data := f.data, pts := f.pts, dts := f.pts }).1
          = some { a with calls := a.calls ++ [outBuffer f] } := by
      rw [ha]
      rfl
    simp only [pushPreroll, hstep]
    rw [ih _ { a with calls := a.calls ++ [outBuffer f] } rfl]
    simp only [List.map_cons, List.length_cons, List.append_assoc, List.singleton_append]
    rw [counter_add_succ]

theorem onNewBuffer_recording (s : PrebufferRecorder) (a : AppSrc) (b : GstBuffer)
    (hrec : s.recordingActive = true) (ha : s.appsrcRec = some a)
    (hmap : b.mappable = true) (hcap : 1 ≤ s.ring.maxFrames) :
    ∃ ring1, s.ring.push (toFrame b) = some ring1 ∧ ring1.maxFrames = s.ring.maxFrames ∧
      s.onNewBuffer b = some { s with
        ring := ring1
        totalFrames := s.totalFrames + 1
        appsrcRec := some { a with calls := a.calls ++ [outBuffer (toFrame b)] }
        livePushed := s.livePushed + 1 } := by
  obtain ⟨ring1, hpush, hmax⟩ := FrameRing.push_isSome s.ring (toFrame b) hcap
  refine ⟨ring1, hpush, hmax, ?_⟩
  have hpush2 : s.ring.push
      { data := b.data, pts := if b.pts ≠ GST_CLOCK_TIME_NONE then b.pts else 0,
        keyframe := !b.deltaUnit } = some ring1 := hpush
  simp only [onNewBuffer, hmap, hpush2, hrec, ha, Bool.true_eq_false, if_false,
    Option.isSome_some, Bool.and_self, if_true]
  rfl

theorem onNewBuffer_idle (s : PrebufferRecorder) (b : GstBuffer)
    (hrec : s.recordingActive = false)
    (hmap : b.mappable = true) (hcap : 1 ≤ s.ring.maxFrames) :
    ∃ ring1, s.ring.push (toFrame b) = some ring1 ∧ ring1.maxFrames = s.ring.maxFrames ∧
      s.onNewBuffer b = some { s with
        ring := ring1
        totalFrames := s.totalFrames + 1 } := by
  obtain ⟨ring1, hpush, hmax⟩ := FrameRing.push_isSome s.ring (toFrame b) hcap
  refine ⟨ring1, hpush, hmax, ?_⟩
  have hpush2 : s.ring.push
      { data := b.data, pts := if b.pts ≠ GST_CLOCK_TIME_NONE then b.pts else 0,
        keyframe := !b.deltaUnit } = some ring1 := hpush
  simp only [onNewBuffer, hmap, hpush2, hrec, Bool.true_eq_false, if_false, Bool.false_and,
    Bool.false_eq_true]

theorem onNewBuffers_recording (bufs : List GstBuffer) :
    ∀ (s : PrebufferRecorder) (a : AppSrc), s.recordingActive = true → s.appsrcRec = some a →
      (∀ b ∈ bufs, b.mappable = true) → 1 ≤ s.ring.maxFrames →
      ∃ ring1, s.ring.pushAll (bufs.map toFrame) = some ring1 ∧
        ring1.maxFrames = s.ring.maxFrames ∧
        s.onNewBuffers bufs = some { s with
          ring := ring1
          totalFrames := s.totalFrames + bufs.length
          appsrcRec := some { a with
            calls := a.calls ++ (bufs.map toFrame).map outBuffer }
          livePushed := s.livePushed + bufs.length } := by
  induction bufs with
  | nil =>
    intro s a _ ha _ _
    refine ⟨s.ring, rfl, rfl, ?_⟩
    cases s
    simp only at ha
    subst ha
    simp [onNewBuffers]
  | cons b bs ih =>
    intro s a hrec ha hmap hcap
    obtain ⟨ring1, hpush, hmax, hstep⟩ :=
      onNewBuffer_recording s a b hrec ha (hmap b (List.mem_cons_self b bs)) hcap
    obtain ⟨ring2, hpushAll, hmax2, hrest⟩ :=
      ih { s with
          ring := ring1
          totalFrames := s.totalFrames + 1
          appsrcRec := some { a with calls := a.calls ++ [outBuffer (toFrame b)] }
          livePushed := s.livePushed + 1 }
        { a with calls := a.calls ++ [outBuffer (toFrame b)] } hrec rfl
        (fun x hx => hmap x (List.mem_cons_of_mem b hx)) (show 1 ≤ ring1.maxFrames by rw [hmax]; exact hcap)
    refine ⟨ring2, ?_, ?_, ?_⟩
    · simp only [List.map_cons, FrameRing.pushAll, hpush]
      exact hpushAll
    · exact hmax2.trans hmax
    · simp only [onNewBuffers, hstep, hrest, List.map_cons, List.length_cons,
        List.append_assoc, List.singleton_append]
      rw [counter_add_succ, counter_add_succ]

theorem onNewBuffers_idle (bufs : List GstBuffer) :
    ∀ (s : PrebufferRecorder), s.recordingActive = false →
      (∀ b ∈ bufs, b.mappable = true) → 1 ≤ s.ring.maxFrames →
      ∃ ring1, s.ring.pushAll (bufs.map toFrame) = some ring1 ∧
        ring1.maxFrames = s.ring.maxFrames ∧
        s.onNewBuffers bufs = some { s with
          ring := ring1
          totalFrames := s.totalFrames + bufs.length } := by
  induction bufs with
  | nil =>
    intro s _ _ _
    exact ⟨s.ring, rfl, rfl, rfl⟩
  | cons b bs ih =>
    intro s hrec hmap hcap
    obtain ⟨ring1, hpush, hmax, hstep⟩ :=
      onNewBuffer_idle s b hrec (hmap b (List.mem_cons_self b bs)) hcap
    obtain ⟨ring2, hpushAll, hmax2, hrest⟩ :=
      ih { s with ring := ring1, totalFrames := s.totalFrames + 1 } hrec
        (fun x hx => hmap x (List.mem_cons_of_mem b hx)) (show 1 ≤ ring1.maxFrames by rw [hmax]; exact hcap)
    refine ⟨ring2, ?_, ?_, ?_⟩
    · simp only [List.map_cons, FrameRing.pushAll, hpush]
      exact hpushAll
    · exact hmax2.trans hmax
    · simp only [onNewBuffers, hstep, hrest, List.length_cons]
      rw [counter_add_succ]

theorem triggerStart_eq (s : PrebufferRecorder) (a : AppSrc)
    (hidle : s.recordingActive = false) (ha : s.appsrcRec = some a) :
    s.triggerStart = { s with
      appsrcRec := some { a with
        calls := a.calls ++ s.ring.getPrebufferFromLastKeyframe.map outBuffer }
      prebufferPushed := s.prebufferPushed + s.ring.getPrebufferFromLastKeyframe.length
      recordingActive := true } := by
  simp only [triggerStart, hidle, Bool.false_eq_true, if_false]
  rw [pushPreroll_eq _ s a ha]

theorem session_counters (s0 : PrebufferRecorder) (a : AppSrc) (before live : List GstBuffer)
    (hidle : s0.recordingActive = false) (ha : s0.appsrcRec = some a)
    (hcap : 1 ≤ s0.ring.maxFrames)
    (hb : ∀ b ∈ before, b.mappable = true) (hl : ∀ b ∈ live, b.mappable = true) :
    ∃ ring1 s1, s0.ring.pushAll (before.map toFrame) = some ring1 ∧
      session s0 before live = some s1 ∧
      s1.totalFrames = s0.totalFrames + before.length + live.length ∧
      s1.livePushed = s0.livePushed + live.length ∧
      s1.prebufferPushed = s0.prebufferPushed + ring1.getPrebufferFromLastKeyframe.length := by
  obtain ⟨ring1, hpush1, hmax1, hrun1⟩ := onNewBuffers_idle before s0 hidle hb hcap
  obtain ⟨t1, ht1⟩ : ∃ t1 : PrebufferRecorder,
      t1 = { s0 with ring := ring1, totalFrames := s0.totalFrames + before.length } := ⟨_, rfl⟩
  rw [← ht1] at hrun1
  have f1 : t1.recordingActive = false := by rw [ht1]; exact hidle
  have f2 : t1.appsrcRec = some a := by rw [ht1]; exact ha
  have f3 : t1.ring = ring1 := by rw [ht1]
  have f4 : t1.totalFrames = s0.totalFrames + before.length := by rw [ht1]
  have f5 : t1.livePushed = s0.livePushed := by rw [ht1]
  have f6 : t1.prebufferPushed = s0.prebufferPushed := by rw [ht1]
  obtain ⟨t2, ht2⟩ : ∃ t2 : PrebufferRecorder, t2 = t1.triggerStart := ⟨_, rfl⟩
  have e2 := triggerStart_eq t1 a f1 f2
  rw [← ht2] at e2
  have g1 : t2.recordingActive = true := by rw [e2]
  have g2 : t2.appsrcRec = some { a with
      calls := a.calls ++ t1.ring.getPrebufferFromLastKeyframe.map outBuffer } := by rw [e2]
  have g3 : t2.ring = ring1 := by rw [e2]; exact f3
  have g4 : t2.totalFrames = s0.totalFrames + before.length := by rw [e2]; exact f4
  have g5 : t2.livePushed = s0.livePushed := by rw [e2]; exact f5
  have g6 : t2.prebufferPushed
      = s0.prebufferPushed + ring1.getPrebufferFromLastKeyframe.length := by
    rw [e2]
    show t1.prebufferPushed + t1.ring.getPrebufferFromLastKeyframe.length = _
    rw [f6, f3]
  have hcap2 : 1 ≤ t2.ring.maxFrames := by rw [g3, hmax1]; exact hcap
  obtain ⟨ring2, _, _, hrun3⟩ := onNewBuffers_recording live t2 _ g1 g2 hl hcap2
  obtain ⟨t3, ht3⟩ : ∃ t3 : PrebufferRecorder, t3 = { t2 with
      ring := ring2
      totalFrames := t2.totalFrames + live.length
      appsrcRec := some { a with
        calls := a.calls ++ t1.ring.getPrebufferFromLastKeyframe.map outBuffer
          ++ (live.map toFrame).map outBuffer }
      livePushed := t2.livePushed + live.length } := ⟨_, rfl⟩
  have hrun4 : t2.onNewBuffers live = some t3 := by rw [ht3]; exact hrun3
  have k1 : t3.recordingActive = true := by rw [ht3]; exact g1
  have k4 : t3.totalFrames = s0.totalFrames + before.length + live.length := by
    rw [ht3]
    show t2.totalFrames + live.length = _
    rw [g4]
  have k5 : t3.livePushed = s0.livePushed + live.length := by
    rw [ht3]
    show t2.livePushed + live.length = _
    rw [g5]
  have k6 : t3.prebufferPushed
      = s0.prebufferPushed + ring1.getPrebufferFromLastKeyframe.length := by
    rw [ht3]
    exact g6
  refine ⟨ring1, t3.triggerStop, hpush1, ?_, ?_, ?_, ?_⟩
  · simp only [session, hrun1, ← ht2, hrun4]
  · simp only [triggerStop, Bool.true_eq_false, if_false, k1, k4]
  · simp only [triggerStop, Bool.true_eq_false, if_false, k1, k5]
  · simp only [triggerStop, Bool.true_eq_false, if_false, k1, k6]

end PrebufferRecorder

/-! ## Theorems on the frame ring -/

/-- C1 (keyframe anchoring): for a history that fits the `int` index of the
scan, if `km` is the largest index whose frame is a keyframe, then
`getPrebufferFromLastKeyframe` returns exactly the frames at indices
`km .. size-1`, in their original order. -/
theorem keyframe_anchoring (r : FrameRing) (km : Nat) (k : EncodedFrame)
    (hsize : r.frames.length ≤ INT_MAX)
    (hkm : r.frames[km]? = some k) (hkey : k.keyframe = true)
    (hlast : ∀ j f, km < j → r.frames[j]? = some f → f.keyframe = false) :
    r.getPrebufferFromLastKeyframe = r.frames.drop km := by
  have hlen : km < r.frames.length := by
    rcases List.getElem?_eq_some.mp hkm with ⟨h, _⟩
    exact h
  have hne : r.frames.isEmpty = false := by
    cases hf : r.frames with
    | nil => rw [hf] at hlen; simp at hlen
    | cons a t => rfl
  have hidx := FrameRing.castInt_size_pred r.frames.length (by omega) hsize
  have hk : FrameRing.keyAt r.frames km = true := by
    rw [FrameRing.keyAt_eq_of_get r.frames km k hkm, hkey]
  have hl : ∀ j, km < j → j < r.frames.length → FrameRing.keyAt r.frames j = false := by
    intro j h1 h2
    have hj : r.frames[j]? = some (r.frames[j]) := List.getElem?_eq_getElem h2
    rw [FrameRing.keyAt_eq_of_get r.frames j _ hj]
    exact hlast j _ h1 hj
  have hscan := FrameRing.scanBack_last_key r.frames km r.frames.length hlen hk hl
  have hto : ((r.frames.length : Int) - 1).toNat + 1 = r.frames.length := by omega
  have hnn : ¬ ((r.frames.length : Int) - 1 < 0) := by omega
  have hkn : ¬ ((km : Int) < 0) := by omega
  simp only [FrameRing.getPrebufferFromLastKeyframe, hne, hidx, hto, hscan, hnn, hkn,
    if_false, Int.toNat_ofNat, Bool.false_eq_true]

/-- Witness of `keyframe_anchoring`: the history with keyframe flags
`[true, false, false, true, false]` yields frames 3 and 4 only. -/
theorem keyframe_anchoring_witness :
    (FrameRing.mk 5 [⟨[0], 0, true⟩, ⟨[1], 1, false⟩, ⟨[2], 2, false⟩, ⟨[3], 3, true⟩,
        ⟨[4], 4, false⟩]).getPrebufferFromLastKeyframe
      = [⟨[3], 3, true⟩, ⟨[4], 4, false⟩] :=
  keyframe_anchoring
    (FrameRing.mk 5 [⟨[0], 0, true⟩, ⟨[1], 1, false⟩, ⟨[2], 2, false⟩, ⟨[3], 3, true⟩,
        ⟨[4], 4, false⟩]) 3 ⟨[3], 3, true⟩ (by decide) (by decide) (by decide)
    (by
      intro j f hj hf
      have hlt : j < 5 := (List.getElem?_eq_some.mp hf).1
      have h4 : j = 4 := by omega
      subst h4
      simp at hf
      rw [← hf])

/-- C2 (no-keyframe fallback): for every history in which no frame is a
keyframe, the empty history included, `getPrebufferFromLastKeyframe` returns
the entire history in its original order. -/
theorem no_keyframe_fallback (r : FrameRing)
    (hnone : ∀ f ∈ r.frames, f.keyframe = false) :
    r.getPrebufferFromLastKeyframe = r.frames := by
  unfold FrameRing.getPrebufferFromLastKeyframe
  by_cases hemp : r.frames.isEmpty = true
  · simp only [hemp, if_true]
    exact (List.isEmpty_iff.mp hemp).symm
  · have hscan : ∀ n, FrameRing.scanBack r.frames n = -1 := fun n =>
      FrameRing.scanBack_all_delta r.frames n
        (fun j _ => FrameRing.keyAt_false_of_no_key r.frames hnone j)
    simp only [hemp, hscan, Bool.false_eq_true, if_false]
    split_ifs <;> simp

/-- Witness of `no_keyframe_fallback`: three frames with flags
`[false, false, false]` are all returned. -/
theorem no_keyframe_fallback_witness :
    (FrameRing.mk 3 [⟨[0], 0, false⟩, ⟨[1], 1, false⟩, ⟨[2], 2, false⟩]).getPrebufferFromLastKeyframe
      = [⟨[0], 0, false⟩, ⟨[1], 1, false⟩, ⟨[2], 2, false⟩] :=
  no_keyframe_fallback (FrameRing.mk 3 [⟨[0], 0, false⟩, ⟨[1], 1, false⟩, ⟨[2], 2, false⟩])
    (by decide)

/-- C4 (eviction FIFO): for every capacity `N ≥ 1` and every sequence of
`M > N` frames pushed onto an initially empty ring, every push returns and the
ring afterwards holds exactly `N` frames, the last `N` pushed, in push
order. -/
theorem eviction_fifo (N : Nat) (fs : List EncodedFrame) (hN : 1 ≤ N)
    (hM : N < fs.length) :
    ∃ r, (FrameRing.new N).pushAll fs = some r ∧ r.frames.length = N ∧
      r.frames = fs.drop (fs.length - N) := by
  refine ⟨{ maxFrames := N, frames := fs.drop (fs.length - N) }, ?_, ?_, rfl⟩
  · have h := FrameRing.pushAll_eq_drop fs (FrameRing.new N) hN (Nat.zero_le N)
    simpa [FrameRing.new] using h
  · simp only [List.length_drop]
    omega

/-- Witness of `eviction_fifo`: capacity 2, three frames pushed. -/
theorem eviction_fifo_witness :
    ∃ r, (FrameRing.new 2).pushAll
        [EncodedFrame.mk [0] 0 true, EncodedFrame.mk [1] 1 false, EncodedFrame.mk [2] 2 false]
          = some r ∧
      r.frames.length = 2 ∧
      r.frames = [EncodedFrame.mk [0] 0 true, EncodedFrame.mk [1] 1 false,
          EncodedFrame.mk [2] 2 false].drop
        ([EncodedFrame.mk [0] 0 true, EncodedFrame.mk [1] 1 false,
          EncodedFrame.mk [2] 2 false].length - 2) :=
  eviction_fifo 2
    [EncodedFrame.mk [0] 0 true, EncodedFrame.mk [1] 1 false, EncodedFrame.mk [2] 2 false]
    (by decide) (by decide)

/-- C5 (capacity invariant, capacity zero): on a ring built with capacity 0 the
first `push` finds `size() == maxFrames_` on the empty deque and calls
`pop_front()` on it, so the push has no defined result and does not establish
`size() ≤ 0`. -/
theorem push_capacity_zero_undefined (f : EncodedFrame) :
    (FrameRing.new 0).push f = none := by
  rfl

/-! ## Theorems on the recorder -/

/-- C3 (replay-then-live ordering): after a `triggerStart` made while not
recording, followed by the delivery of frames `f1..fk` to `onNewBuffer`, the
buffers pushed to the recording appsrc since the start are exactly those of
the result of `getPrebufferFromLastKeyframe` on the ring as it was at
`triggerStart`, followed by those of `f1..fk` in arrival order. -/
theorem replay_then_live_ordering (s : PrebufferRecorder) (a : AppSrc)
    (bufs : List GstBuffer)
    (hidle : s.recordingActive = false) (ha : s.appsrcRec = some a)
    (hcap : 1 ≤ s.ring.maxFrames) (hmap : ∀ b ∈ bufs, b.mappable = true) :
    ∃ s1 a1, s.triggerStart.onNewBuffers bufs = some s1 ∧ s1.appsrcRec = some a1 ∧
      a1.calls = a.calls ++
        (s.ring.getPrebufferFromLastKeyframe ++
          bufs.map PrebufferRecorder.toFrame).map PrebufferRecorder.outBuffer := by
  rw [PrebufferRecorder.triggerStart_eq s a hidle ha]
  obtain ⟨ring1, _, _, hrun⟩ := PrebufferRecorder.onNewBuffers_recording bufs
    { s with
      appsrcRec := some { a with
        calls := a.calls ++
          s.ring.getPrebufferFromLastKeyframe.map PrebufferRecorder.outBuffer }
      prebufferPushed := s.prebufferPushed + s.ring.getPrebufferFromLastKeyframe.length
      recordingActive := true }
    { a with
      calls := a.calls ++ s.ring.getPrebufferFromLastKeyframe.map PrebufferRecorder.outBuffer }
    rfl rfl hmap hcap
  refine ⟨_, _, hrun, rfl, ?_⟩
  simp only [List.map_append, List.append_assoc]

/-- Witness of `replay_then_live_ordering`: the ring holds the five scenario
frames, two buffers arrive after the start. -/
theorem replay_then_live_ordering_witness :
    ∃ s1 a1, (idleRecorder freshSink scenarioFrames).triggerStart.onNewBuffers liveBuffers
        = some s1 ∧ s1.appsrcRec = some a1 ∧
      a1.calls = freshSink.calls ++
        ((idleRecorder freshSink scenarioFrames).ring.getPrebufferFromLastKeyframe ++
          liveBuffers.map PrebufferRecorder.toFrame).map PrebufferRecorder.outBuffer :=
  replay_then_live_ordering (idleRecorder freshSink scenarioFrames) freshSink liveBuffers
    (by decide) (by decide) (by decide) (by decide)

/-- C6 (start idempotence): in every state in which recording is already
active `triggerStart` changes nothing at all; a second `triggerStart` right
after a first one changes nothing, so that from an idle state the two calls
push the prebuffer to the appsrc exactly once. -/
theorem start_idempotent (s : PrebufferRecorder) :
    (s.recordingActive = true → s.triggerStart = s) ∧
    s.triggerStart.triggerStart = s.triggerStart ∧
    (∀ a, s.recordingActive = false → s.appsrcRec = some a →
      s.triggerStart.triggerStart.appsrcRec = some { a with
        calls := a.calls ++
          s.ring.getPrebufferFromLastKeyframe.map PrebufferRecorder.outBuffer }) := by
  have hnoop : ∀ t : PrebufferRecorder, t.recordingActive = true → t.triggerStart = t := by
    intro t ht
    simp [PrebufferRecorder.triggerStart, ht]
  have hactive : s.triggerStart.recordingActive = true := by
    cases hrec : s.recordingActive with
    | true => rw [hnoop s hrec]; exact hrec
    | false => simp [PrebufferRecorder.triggerStart, hrec]
  refine ⟨hnoop s, hnoop _ hactive, ?_⟩
  intro a hidle ha
  rw [hnoop _ hactive, PrebufferRecorder.triggerStart_eq s a hidle ha]

/-- Witness of `start_idempotent`: a recorder that is recording is left as it
is, and two starts from the idle scenario recorder push frames 3 and 4 once. -/
theorem start_idempotent_witness :
    (idleRecorder freshSink scenarioFrames).triggerStart.triggerStart
        = (idleRecorder freshSink scenarioFrames).triggerStart ∧
    (idleRecorder freshSink scenarioFrames).triggerStart.triggerStart.appsrcRec
      = some { freshSink with
          calls := freshSink.calls ++
            (idleRecorder freshSink scenarioFrames).ring.getPrebufferFromLastKeyframe.map
              PrebufferRecorder.outBuffer } :=
  ⟨(start_idempotent (idleRecorder freshSink scenarioFrames).triggerStart).1 (by decide),
    (start_idempotent (idleRecorder freshSink scenarioFrames)).2.2 freshSink (by decide)
      (by decide)⟩

/-- C7 (stop idempotence): `triggerStop` while recording is not active changes
nothing at all (no end-of-stream); while recording is active it signals
end-of-stream exactly once and leaves recording inactive; a second
`triggerStop` right after changes nothing, so the two calls signal
end-of-stream exactly once. -/
theorem stop_idempotent (s : PrebufferRecorder) :
    (s.recordingActive = false → s.triggerStop = s) ∧
    (∀ a, s.recordingActive = true → s.appsrcRec = some a →
      s.triggerStop.recordingActive = false ∧
      s.triggerStop.appsrcRec = some { a with eos := a.eos + 1 } ∧
      s.triggerStop.triggerStop.appsrcRec = some { a with eos := a.eos + 1 }) ∧
    s.triggerStop.triggerStop = s.triggerStop := by
  have hnoop : ∀ t : PrebufferRecorder, t.recordingActive = false → t.triggerStop = t := by
    intro t ht
    simp [PrebufferRecorder.triggerStop, ht]
  have hidle : s.triggerStop.recordingActive = false := by
    cases hrec : s.recordingActive with
    | false => rw [hnoop s hrec]; exact hrec
    | true => simp [PrebufferRecorder.triggerStop, hrec]
  refine ⟨hnoop s, ?_, hnoop _ hidle⟩
  intro a hrec ha
  have hsrc : s.triggerStop.appsrcRec = some { a with eos := a.eos + 1 } := by
    simp [PrebufferRecorder.triggerStop, hrec, ha, gst_app_src_end_of_stream]
  exact ⟨hidle, hsrc, by rw [hnoop _ hidle]; exact hsrc⟩

/-- Witness of `stop_idempotent`: stopping the idle scenario recorder changes
nothing, and stopping it twice after a start signals end-of-stream once. -/
theorem stop_idempotent_witness :
    (idleRecorder freshSink scenarioFrames).triggerStop = idleRecorder freshSink scenarioFrames ∧
    (idleRecorder freshSink scenarioFrames).triggerStart.triggerStop.triggerStop.appsrcRec
      = some { rejected := [],
               calls := [⟨[3], 30, 30⟩, ⟨[4], 40, 40⟩],
               eos := 1 } :=
  ⟨(stop_idempotent (idleRecorder freshSink scenarioFrames)).1 (by decide),
    ((stop_idempotent (idleRecorder freshSink scenarioFrames).triggerStart).2.1
      { rejected := [], calls := [⟨[3], 30, 30⟩, ⟨[4], 40, 40⟩], eos := 0 }
      (by decide) (by decide)).2.2⟩

/-- C8 (counters, as the code keeps them): for every session run on a freshly
constructed and initialised recorder (frames delivered before the start, one
`triggerStart`, frames delivered while recording, one `triggerStop`), when
`triggerStop` has completed `totalFrames_` counts every frame delivered,
`livePushed_` those delivered while recording, `prebufferPushed_` the frames
of the snapshot taken at `triggerStart`; hence
`prebufferPushed_ + livePushed_ ≤ totalFrames_`. -/
theorem counters_after_session (a : AppSrc) (before live : List GstBuffer)
    (hb : ∀ b ∈ before, b.mappable = true) (hl : ∀ b ∈ live, b.mappable = true) :
    ∃ ring1 s1,
      (FrameRing.new 900).pushAll (before.map PrebufferRecorder.toFrame) = some ring1 ∧
      PrebufferRecorder.session (PrebufferRecorder.new.initPipelines (some a)) before live
        = some s1 ∧
      s1.totalFrames = before.length + live.length ∧
      s1.livePushed = live.length ∧
      s1.prebufferPushed = ring1.getPrebufferFromLastKeyframe.length ∧
      s1.prebufferPushed + s1.livePushed ≤ s1.totalFrames := by
  obtain ⟨ring1, s1, hpush1, hrun, htot, hlive, hpre⟩ :=
    PrebufferRecorder.session_counters (PrebufferRecorder.new.initPipelines (some a)) a
      before live rfl rfl (show 1 ≤ 900 by decide) hb hl
  have hpush2 : (FrameRing.new 900).pushAll (before.map PrebufferRecorder.toFrame)
      = some ring1 := hpush1
  have hlen1 : ring1.frames.length ≤ before.length := by
    have h := FrameRing.pushAll_eq_drop (before.map PrebufferRecorder.toFrame)
      (FrameRing.new 900) (by decide) (by decide)
    rw [hpush2] at h
    have h2 := congrArg FrameRing.frames (Option.some.inj h)
    simp only at h2
    rw [h2]
    simp only [List.length_drop, FrameRing.new, List.nil_append, List.length_map]
    omega
  have hsnap := FrameRing.getPrebuffer_length_le ring1
  have htot2 : s1.totalFrames = before.length + live.length := by
    rw [htot]
    show 0 + before.length + live.length = _
    omega
  have hlive2 : s1.livePushed = live.length := by
    rw [hlive]
    show 0 + live.length = _
    omega
  have hpre2 : s1.prebufferPushed = ring1.getPrebufferFromLastKeyframe.length := by
    rw [hpre]
    show 0 + ring1.getPrebufferFromLastKeyframe.length = _
    omega
  refine ⟨ring1, s1, hpush2, hrun, htot2, hlive2, hpre2, ?_⟩
  rw [htot2, hlive2, hpre2]
  exact Nat.add_le_add_right (Nat.le_trans hsnap hlen1) live.length

/-- Witness of `counters_after_session`: the five scenario buffers before the
start and two buffers while recording. -/
theorem counters_after_session_witness :
    ∃ ring1 s1,
      (FrameRing.new 900).pushAll (scenarioBuffers.map PrebufferRecorder.toFrame) = some ring1 ∧
      PrebufferRecorder.session (PrebufferRecorder.new.initPipelines (some freshSink))
        scenarioBuffers liveBuffers = some s1 ∧
      s1.totalFrames = scenarioBuffers.length + liveBuffers.length ∧
      s1.livePushed = liveBuffers.length ∧
      s1.prebufferPushed = ring1.getPrebufferFromLastKeyframe.length ∧
      s1.prebufferPushed + s1.livePushed ≤ s1.totalFrames :=
  counters_after_session freshSink scenarioBuffers liveBuffers (by decide) (by decide)

/-- C8, counterexample to the equality: five frames with keyframe flags
`[true, false, false, true, false]` before the start and two frames while
recording leave `totalFrames_ = 7`, `prebufferPushed_ = 2` and
`livePushed_ = 2` when `triggerStop` completes. -/
theorem counter_sum_differs :
    ∃ s1, PrebufferRecorder.session (PrebufferRecorder.new.initPipelines (some freshSink))
        scenarioBuffers liveBuffers = some s1 ∧
      s1.totalFrames = 7 ∧ s1.prebufferPushed = 2 ∧ s1.livePushed = 2 ∧
      s1.totalFrames ≠ s1.prebufferPushed + s1.livePushed := by
  refine ⟨_, rfl, ?_, ?_, ?_, ?_⟩ <;> decide

/-- C9 (a rejected replay push, as the code handles it): when the appsrc
answers one of the pushes of the `triggerStart` replay with an error, the
answer is dropped: every frame of the snapshot is still pushed, in order,
`prebufferPushed_` counts them all, the recorder is left recording, and a
frame delivered afterwards is forwarded to the appsrc as well. -/
theorem start_ignores_rejection (s : PrebufferRecorder) (a : AppSrc)
    (hidle : s.recordingActive = false) (ha : s.appsrcRec = some a)
    (_hrej : ∃ i, i < s.ring.getPrebufferFromLastKeyframe.length ∧
      a.calls.length + i ∈ a.rejected) :
    s.triggerStart.recordingActive = true ∧
    s.triggerStart.appsrcRec = some { a with
      calls := a.calls ++
        s.ring.getPrebufferFromLastKeyframe.map PrebufferRecorder.outBuffer } ∧
    s.triggerStart.prebufferPushed
      = s.prebufferPushed + s.ring.getPrebufferFromLastKeyframe.length ∧
    (∀ b : GstBuffer, b.mappable = true → 1 ≤ s.ring.maxFrames →
      ∃ s1 a1, s.triggerStart.onNewBuffer b = some s1 ∧ s1.appsrcRec = some a1 ∧
        a1.calls = a.calls ++
          s.ring.getPrebufferFromLastKeyframe.map PrebufferRecorder.outBuffer ++
            [PrebufferRecorder.outBuffer (PrebufferRecorder.toFrame b)]) := by
  have hstart := PrebufferRecorder.triggerStart_eq s a hidle ha
  refine ⟨by rw [hstart], by rw [hstart], by rw [hstart], ?_⟩
  intro b hmap hcap
  have hrec : s.triggerStart.recordingActive = true := by rw [hstart]
  have hsrc : s.triggerStart.appsrcRec = some { a with
      calls := a.calls ++
        s.ring.getPrebufferFromLastKeyframe.map PrebufferRecorder.outBuffer } := by
    rw [hstart]
  have hcap2 : 1 ≤ s.triggerStart.ring.maxFrames := by
    rw [hstart]
    exact hcap
  obtain ⟨ring1, _, _, hstep⟩ :=
    PrebufferRecorder.onNewBuffer_recording s.triggerStart _ b hrec hsrc hmap hcap2
  exact ⟨_, _, hstep, rfl, rfl⟩

/-- Witness of `start_ignores_rejection`: the ring holds three frames, the
first a keyframe, and the appsrc rejects its first push. -/
theorem start_ignores_rejection_witness :
    (idleRecorder rejectingSink keyedFrames).triggerStart.recordingActive = true ∧
    (idleRecorder rejectingSink keyedFrames).triggerStart.appsrcRec = some { rejectingSink with
      calls := rejectingSink.calls ++
        (idleRecorder rejectingSink keyedFrames).ring.getPrebufferFromLastKeyframe.map
          PrebufferRecorder.outBuffer } :=
  ⟨(start_ignores_rejection (idleRecorder rejectingSink keyedFrames) rejectingSink
      (by decide) (by decide) ⟨0, by decide, by decide⟩).1,
    (start_ignores_rejection (idleRecorder rejectingSink keyedFrames) rejectingSink
      (by decide) (by decide) ⟨0, by decide, by decide⟩).2.1⟩

/-- C9, counterexample: the appsrc answers the first push of the replay with
an error, yet `triggerStart` pushes the two remaining frames, leaves the
recorder recording, and the next live frame is forwarded. -/
theorem rejection_not_propagated :
    (gst_app_src_push_buffer (idleRecorder rejectingSink keyedFrames).appsrcRec
      ⟨[0], 0, 0⟩).2 = GstFlowReturn.error ∧
    (idleRecorder rejectingSink keyedFrames).triggerStart.appsrcRec
      = some { rejected := [0], calls := [⟨[0], 0, 0⟩, ⟨[1], 10, 10⟩, ⟨[2], 20, 20⟩], eos := 0 } ∧
    (idleRecorder rejectingSink keyedFrames).triggerStart.recordingActive = true ∧
    ((idleRecorder rejectingSink keyedFrames).triggerStart.onNewBuffer
        ⟨true, [5], 50, true⟩).map PrebufferRecorder.appsrcRec
      = some (some { rejected := [0],
                     calls := [⟨[0], 0, 0⟩, ⟨[1], 10, 10⟩, ⟨[2], 20, 20⟩, ⟨[5], 50, 50⟩],
                     eos := 0 }) := by
  decide

/-- C10 (anchoring can only be read off the frames): for a history that fits
the `int` index of the scan, the result of `getPrebufferFromLastKeyframe`,
which is the bare frame sequence, starts with a keyframe exactly when the
history contains a keyframe. -/
theorem anchored_iff_head_keyframe (r : FrameRing) (hsize : r.frames.length ≤ INT_MAX) :
    (∃ f, r.getPrebufferFromLastKeyframe.head? = some f ∧ f.keyframe = true) ↔
    (∃ f ∈ r.frames, f.keyframe = true) := by
  constructor
  · rintro ⟨f, hhead, hkey⟩
    exact ⟨f, FrameRing.getPrebuffer_mem r f (List.mem_of_mem_head? hhead), hkey⟩
  · rintro ⟨f, hmem, hkey⟩
    obtain ⟨i, hi⟩ := List.getElem?_of_mem hmem
    have hlt : i < r.frames.length := (List.getElem?_eq_some.mp hi).1
    have hne : r.frames.isEmpty = false := by
      cases hf : r.frames with
      | nil => rw [hf] at hlt; simp at hlt
      | cons x t => rfl
    have hidx := FrameRing.castInt_size_pred r.frames.length (by omega) hsize
    have hto : ((r.frames.length : Int) - 1).toNat + 1 = r.frames.length := by omega
    have hnn : ¬ ((r.frames.length : Int) - 1 < 0) := by omega
    rcases FrameRing.scanBack_cases r.frames r.frames.length with ⟨_, hall⟩ | ⟨k, hk, hs, hkk⟩
    · have hfalse := hall i hlt
      rw [FrameRing.keyAt_eq_of_get r.frames i f hi, hkey] at hfalse
      exact absurd hfalse (by decide)
    · have hkn : ¬ ((k : Int) < 0) := by omega
      have hget : r.frames[k]? = some (r.frames[k]) := List.getElem?_eq_getElem hk
      refine ⟨r.frames[k], ?_, ?_⟩
      · simp only [FrameRing.getPrebufferFromLastKeyframe, hne, hidx, hto, hs, hnn, hkn,
          if_false, Int.toNat_ofNat, Bool.false_eq_true, List.head?_drop]
        exact hget
      · rw [← FrameRing.keyAt_eq_of_get r.frames k _ hget]
        exact hkk

/-- Witness of `anchored_iff_head_keyframe`: the five scenario frames. -/
theorem anchored_iff_head_keyframe_witness :
    (∃ f, (FrameRing.mk 5 scenarioFrames).getPrebufferFromLastKeyframe.head? = some f ∧
      f.keyframe = true) ↔ (∃ f ∈ (FrameRing.mk 5 scenarioFrames).frames, f.keyframe = true) :=
  anchored_iff_head_keyframe (FrameRing.mk 5 scenarioFrames) (by decide)

/-- C10, counterexample: a history without keyframe and a history that starts
with one are both returned as the bare list of their frames, and the two
`triggerStart` calls leave recorders that differ in the ring only: no mark
comes back with the snapshot, none is kept, none reaches the appsrc. -/
theorem snapshot_carries_no_mark :
    (FrameRing.mk 3 deltaFrames).getPrebufferFromLastKeyframe = deltaFrames ∧
    (FrameRing.mk 3 keyedFrames).getPrebufferFromLastKeyframe = keyedFrames ∧
    (idleRecorder freshSink deltaFrames).triggerStart
      = { (idleRecorder freshSink keyedFrames).triggerStart with
          ring := { maxFrames := 900, frames := deltaFrames } } := by
  decide

/-- C11 (buffer-only when not recording): for every frame delivered to
`onNewBuffer` while recording is not active (before the first `triggerStart`
or after a `triggerStop`), the appsrc (the buffers it has been handed and its
end-of-stream count) and `livePushed_` are left as they were, whatever the
buffer; and when the buffer can be mapped the call returns with the frame
pushed onto the ring as its newest entry, the flag still clear. -/
theorem buffer_only_when_idle (s : PrebufferRecorder) (b : GstBuffer)
    (hidle : s.recordingActive = false) :
    (∀ s1, s.onNewBuffer b = some s1 →
      s1.appsrcRec = s.appsrcRec ∧ s1.livePushed = s.livePushed) ∧
    (b.mappable = true → 1 ≤ s.ring.maxFrames →
      ∃ ring1 s1, s.ring.push (PrebufferRecorder.toFrame b) = some ring1 ∧
        s.onNewBuffer b = some s1 ∧ s1.ring = ring1 ∧
        ring1.frames.getLast? = some (PrebufferRecorder.toFrame b) ∧
        s1.appsrcRec = s.appsrcRec ∧ s1.livePushed = s.livePushed ∧
        s1.recordingActive = false) := by
  constructor
  · intro s1 hrun
    unfold PrebufferRecorder.onNewBuffer at hrun
    cases hmap : b.mappable with
    | false =>
      rw [if_pos hmap] at hrun
      rw [← Option.some.inj hrun]
      exact ⟨rfl, rfl⟩
    | true =>
      rw [if_neg (by rw [hmap]; decide)] at hrun
      cases hpush : s.ring.push
          { data := b.data, pts := if b.pts ≠ GST_CLOCK_TIME_NONE then b.pts else 0,
            keyframe := !b.deltaUnit } with
      | none =>
        simp only [hpush] at hrun
        exact absurd hrun (by simp)
      | some ring1 =>
        simp only [hpush, hidle, Bool.false_and, Bool.false_eq_true, if_false] at hrun
        rw [← Option.some.inj hrun]
        exact ⟨rfl, rfl⟩
  · intro hmap hcap
    obtain ⟨ring1, hpush, _, hstep⟩ := PrebufferRecorder.onNewBuffer_idle s b hidle hmap hcap
    exact ⟨ring1, _, hpush, hstep, rfl,
      FrameRing.push_getLast s.ring ring1 _ hpush, rfl, rfl, hidle⟩

/-- Witness of `buffer_only_when_idle`: a buffer delivered to the scenario
recorder before any start, and one delivered after a start and a stop. -/
theorem buffer_only_when_idle_witness :
    (∃ ring1 s1, (idleRecorder freshSink scenarioFrames).ring.push
          (PrebufferRecorder.toFrame ⟨true, [5], 50, true⟩) = some ring1 ∧
        (idleRecorder freshSink scenarioFrames).onNewBuffer ⟨true, [5], 50, true⟩ = some s1 ∧
        s1.ring = ring1 ∧
        ring1.frames.getLast? = some (PrebufferRecorder.toFrame ⟨true, [5], 50, true⟩) ∧
        s1.appsrcRec = (idleRecorder freshSink scenarioFrames).appsrcRec ∧
        s1.livePushed = (idleRecorder freshSink scenarioFrames).livePushed ∧
        s1.recordingActive = false) ∧
    (∀ s1, (idleRecorder freshSink scenarioFrames).triggerStart.triggerStop.onNewBuffer
          ⟨true, [5], 50, true⟩ = some s1 →
      s1.appsrcRec = (idleRecorder freshSink scenarioFrames).triggerStart.triggerStop.appsrcRec ∧
      s1.livePushed
        = (idleRecorder freshSink scenarioFrames).triggerStart.triggerStop.livePushed) :=
  ⟨(buffer_only_when_idle (idleRecorder freshSink scenarioFrames) ⟨true, [5], 50, true⟩
      (by decide)).2 (by decide) (by decide),
    (buffer_only_when_idle (idleRecorder freshSink scenarioFrames).triggerStart.triggerStop
      ⟨true, [5], 50, true⟩ (by decide)).1⟩

end Prebuffer
